import Mathlib

/-!
Shallow embedding of the activity-state aggregation core of the siphon
daemon (`siphon-daemon/src/idle.rs`, `meeting.rs`, `dedup.rs`).

Time is modelled by a single monotone clock in whole seconds: both
`std::time::Instant` and `chrono::DateTime<Utc>` readings are represented
as `Nat`, and every operation that calls `Instant::now()` / `Utc::now()`
in the source takes the current reading `now : Nat` as an explicit
argument.  `Instant::duration_since` and chrono subtraction (on a
monotone clock) are truncated subtraction on `Nat`.  The optional
system-level idle probe (`get_system_idle_time()`) is passed to
`check_idle` as an explicit `Option Nat` argument.
-/

namespace Siphon

/-- ASCII lower-casing of one character, as done by `to_lowercase()` on the
ASCII application names and window titles the code matches against. -/
def lowerChar (c : Char) : Char :=
  if c.isUpper then Char.ofNat (c.toNat + 32) else c

/-- Model of Rust `str::to_lowercase()` (ASCII fragment). -/
def lowerStr (s : String) : String := ⟨s.data.map lowerChar⟩

/-- Substring occurrence test on character lists. -/
def containsSub (s pat : List Char) : Bool :=
  match s with
  | [] => pat.isEmpty
  | _ :: rest => pat.isPrefixOf s || containsSub rest pat

/-- Model of Rust `str::contains(pat)`. -/
def strContains (s pat : String) : Bool := containsSub s.data pat.data

/-! ## idle.rs : data model -/

/-- Activity categories (`ActivityCategory` in idle.rs). -/
inductive ActivityCategory where
  | Coding
  | Meeting
  | Communication
  | Research
  | Creative
  | Terminal
  | Other
  deriving DecidableEq

/-- `ActivityCategory::from_activity_type`. -/
def ActivityCategory.from_activity_type (activity_type : String) : ActivityCategory :=
  if activity_type = "shell" ∨ activity_type = "command" ∨ activity_type = "terminal" then
    .Terminal
  else if activity_type = "editor" ∨ activity_type = "file_save" ∨ activity_type = "file_open" then
    .Coding
  else if activity_type = "meeting" ∨ activity_type = "video_call" then
    .Meeting
  else
    .Other

/-- `ActivityCategory::from_app_name`: substring match of the lower-cased
application name against known application families, first family wins. -/
def ActivityCategory.from_app_name (app_name : String) : ActivityCategory :=
  let app_lower := lowerStr app_name
  if ["code", "vim", "emacs", "idea", "xcode", "sublime", "atom", "cursor"].any
      (fun p => strContains app_lower p) then
    .Coding
  else if ["slack", "teams", "mail", "outlook", "messages", "discord"].any
      (fun p => strContains app_lower p) then
    .Communication
  else if ["zoom", "meet", "facetime", "webex"].any
      (fun p => strContains app_lower p) then
    .Meeting
  else if ["photoshop", "illustrator", "figma", "sketch", "blender", "premiere"].any
      (fun p => strContains app_lower p) then
    .Creative
  else if ["chrome", "safari", "firefox", "arc", "edge"].any
      (fun p => strContains app_lower p) then
    .Research
  else if ["terminal", "iterm", "warp", "alacritty", "kitty"].any
      (fun p => strContains app_lower p) then
    .Terminal
  else
    .Other

/-- `format!("{:?}", category).to_lowercase()`, the key used in the
per-category time map. -/
def ActivityCategory.debugLower : ActivityCategory → String
  | .Coding => "coding"
  | .Meeting => "meeting"
  | .Communication => "communication"
  | .Research => "research"
  | .Creative => "creative"
  | .Terminal => "terminal"
  | .Other => "other"

/-- Idle detection configuration (`IdleConfig`); durations in seconds. -/
structure IdleConfig where
  idle_threshold : Nat
  session_end_threshold : Nat
  use_system_idle : Bool
  ignore_idle_in_meetings : Bool
  deriving DecidableEq

/-- User activity state (`ActivityState`). -/
inductive ActivityState where
  | Active
  | Idle
  | Away
  deriving DecidableEq

/-- `format!("{:?}", state).to_lowercase()` for an activity state. -/
def ActivityState.str : ActivityState → String
  | .Active => "active"
  | .Idle => "idle"
  | .Away => "away"

/-- Idle event data (`IdleEventData`). -/
structure IdleEventData where
  previous_state : String
  new_state : String
  idle_duration_seconds : Nat
  last_activity_type : Option String
  last_activity_category : Option ActivityCategory
  system_idle : Bool
  deriving DecidableEq

/-- A period of idle time within a session (`IdlePeriod`). -/
structure IdlePeriod where
  started_at : Nat
  ended_at : Nat
  duration_seconds : Nat
  deriving DecidableEq

/-- Session tracking data (`SessionData`); the category map is modelled as
an association list. -/
structure SessionData where
  session_id : String
  started_at : Nat
  ended_at : Option Nat
  duration_minutes : Nat
  event_count : Nat
  idle_periods : List IdlePeriod
  time_by_category : List (String × Nat)
  had_meetings : Bool
  active_minutes : Nat
  deriving DecidableEq

/-- Idle detector state (`IdleDetector`). `session_start` stores the pair
(Instant, DateTime) of the session-opening call; both are `Nat` readings
of the single modelled clock. -/
structure IdleDetector where
  config : IdleConfig
  last_activity : Nat
  last_activity_time : Nat
  current_state : ActivityState
  session_start : Option (Nat × Nat)
  session_event_count : Nat
  idle_periods : List IdlePeriod
  current_idle_start : Option Nat
  last_activity_type : Option String
  last_activity_category : Option ActivityCategory
  in_meeting : Bool
  category_time : List (String × Nat)
  last_category_change : Nat
  current_category : Option ActivityCategory
  session_had_meetings : Bool
  deriving DecidableEq

/-- `IdleDetector::new` (the constructor reads the clock once). -/
def IdleDetector.new (config : IdleConfig) (now : Nat) : IdleDetector where
  config := config
  last_activity := now
  last_activity_time := now
  current_state := .Active
  session_start := none
  session_event_count := 0
  idle_periods := []
  current_idle_start := none
  last_activity_type := none
  last_activity_category := none
  in_meeting := false
  category_time := []
  last_category_change := now
  current_category := none
  session_had_meetings := false

/-- `HashMap` update `*map.entry(k).or_insert(0) += v`. -/
def bumpEntry (m : List (String × Nat)) (k : String) (v : Nat) : List (String × Nat) :=
  match m with
  | [] => [(k, v)]
  | (k', v') :: rest =>
      if k' = k then (k', v' + v) :: rest else (k', v') :: bumpEntry rest k v

/-- `IdleDetector::set_in_meeting`. -/
def IdleDetector.set_in_meeting (d : IdleDetector) (in_meeting : Bool) : IdleDetector :=
  let d :=
    if in_meeting && !d.in_meeting then { d with session_had_meetings := true } else d
  { d with in_meeting := in_meeting }

/-- `IdleDetector::update_category_time`: credit the time since the last
category change to the previous category, then switch the marker. -/
def IdleDetector.update_category_time (d : IdleDetector)
    (new_category : Option ActivityCategory) (now : Nat) : IdleDetector :=
  let elapsed := now - d.last_category_change
  let category_time :=
    match d.current_category with
    | some cat => bumpEntry d.category_time cat.debugLower elapsed
    | none => d.category_time
  { d with
    category_time := category_time
    current_category := new_category
    last_category_change := now }

/-- `IdleDetector::record_activity_with_app`.  NOTE the source mutates
`last_activity` to `now` before computing the returned `idle_duration`
from it, so the subtraction below is taken against the already-reset
clock; the embedding reproduces that order faithfully. -/
def IdleDetector.record_activity_with_app (d : IdleDetector)
    (activity_type : String) (app_name : Option String) (now : Nat) :
    IdleDetector × Option IdleEventData :=
  let previous_state := d.current_state
  let category :=
    match app_name with
    | some app => ActivityCategory.from_app_name app
    | none => ActivityCategory.from_activity_type activity_type
  let d := d.update_category_time (some category) now
  let d :=
    match d.current_idle_start with
    | some idle_start =>
        { d with
          current_idle_start := none
          idle_periods := d.idle_periods ++
            [IdlePeriod.mk idle_start now (now - idle_start)] }
    | none => d
  let d :=
    if d.session_start.isNone then
      { d with
        session_start := some (now, now)
        category_time := []
        session_had_meetings := false }
    else d
  let d :=
    { d with
      last_activity := now
      last_activity_time := now
      current_state := .Active
      session_event_count := d.session_event_count + 1
      last_activity_type := some activity_type
      last_activity_category := some category }
  let d :=
    if category = .Meeting then { d with session_had_meetings := true } else d
  if previous_state ≠ .Active then
    let idle_duration :=
      match previous_state with
      | .Idle | .Away => now - d.last_activity
      | _ => 0
    (d, some
      { previous_state := previous_state.str
        new_state := "active"
        idle_duration_seconds := idle_duration
        last_activity_type := d.last_activity_type
        last_activity_category := d.last_activity_category
        system_idle := false })
  else
    (d, none)

/-- `IdleDetector::record_activity`. -/
def IdleDetector.record_activity (d : IdleDetector) (activity_type : String)
    (now : Nat) : IdleDetector × Option IdleEventData :=
  d.record_activity_with_app activity_type none now

/-- The `(elapsed, using_system_idle)` pair computed at the top of the
non-suppressed branch of `check_idle`. -/
def IdleDetector.effElapsed (d : IdleDetector) (now : Nat) (sysIdle : Option Nat) :
    Nat × Bool :=
  if d.config.use_system_idle then
    match sysIdle with
    | some system_idle =>
        let app_elapsed := now - d.last_activity
        if system_idle > app_elapsed then (system_idle, true) else (app_elapsed, false)
    | none => (now - d.last_activity, false)
  else
    (now - d.last_activity, false)

/-- The target state `check_idle` derives from the elapsed time. -/
def IdleConfig.targetState (config : IdleConfig) (elapsed : Nat) : ActivityState :=
  if elapsed ≥ config.session_end_threshold then .Away
  else if elapsed ≥ config.idle_threshold then .Idle
  else .Active

/-- `IdleDetector::check_idle`.  NOTE in the meeting-suppression branch the
source sets `current_state` to `Active` and only afterwards formats
`self.current_state` into the event's `previous_state` field; the
embedding reads the updated record in the same order. -/
def IdleDetector.check_idle (d : IdleDetector) (now : Nat) (sysIdle : Option Nat) :
    IdleDetector × Option IdleEventData :=
  if d.in_meeting && d.config.ignore_idle_in_meetings then
    if d.current_state ≠ .Active then
      let d := { d with current_state := .Active }
      (d, some
        { previous_state := d.current_state.str
          new_state := "active"
          idle_duration_seconds := 0
          last_activity_type := some "meeting"
          last_activity_category := some .Meeting
          system_idle := false })
    else
      (d, none)
  else
    let previous_state := d.current_state
    let elapsed := (d.effElapsed now sysIdle).1
    let using_system_idle := (d.effElapsed now sysIdle).2
    let new_state := d.config.targetState elapsed
    if new_state ≠ previous_state then
      let d := { d with current_state := new_state }
      let d := if new_state ≠ .Active then d.update_category_time none now else d
      let d := if new_state = .Idle then { d with current_idle_start := some now } else d
      let d :=
        if new_state = .Away then
          match d.current_idle_start with
          | some idle_start =>
              { d with
                current_idle_start := none
                idle_periods := d.idle_periods ++
                  [IdlePeriod.mk idle_start now (now - idle_start)] }
          | none => d
        else d
      (d, some
        { previous_state := previous_state.str
          new_state := new_state.str
          idle_duration_seconds := elapsed
          last_activity_type := d.last_activity_type
          last_activity_category := d.last_activity_category
          system_idle := using_system_idle })
    else
      (d, none)

/-- `IdleDetector::get_session`. -/
def IdleDetector.get_session (d : IdleDetector) (now : Nat) : Option SessionData :=
  d.session_start.map fun (start_instant, start_time) =>
    let duration := now - start_instant
    let ended := if d.current_state = .Away then some d.last_activity_time else none
    let total_idle_secs := (d.idle_periods.map (·.duration_seconds)).sum
    let duration_secs := duration
    let active_secs := duration_secs - total_idle_secs
    { session_id := "session-" ++ Nat.repr start_time
      started_at := start_time
      ended_at := ended
      duration_minutes := duration_secs / 60
      event_count := d.session_event_count
      idle_periods := d.idle_periods
      time_by_category := d.category_time
      had_meetings := d.session_had_meetings
      active_minutes := active_secs / 60 }

/-- `IdleDetector::end_session`. -/
def IdleDetector.end_session (d : IdleDetector) (now : Nat) :
    IdleDetector × Option SessionData :=
  let session := d.get_session now
  ({ d with
     session_start := none
     session_event_count := 0
     idle_periods := []
     current_idle_start := none
     category_time := []
     session_had_meetings := false
     current_category := none }, session)

/-! ## meeting.rs : data model -/

/-- Foreground window descriptor (`WindowInfo` in window.rs); only the
fields read by the meeting detector carry payloads used here. -/
structure WindowInfo where
  app_name : String
  title : String
  process_id : Nat
  bundle_id : Option String
  url : Option String
  deriving DecidableEq

/-- Meeting platforms (`MeetingPlatform`). -/
inductive MeetingPlatform where
  | Zoom
  | GoogleMeet
  | Teams
  | Slack
  | Discord
  | FaceTime
  | Webex
  | Around
  | Loom
  | Unknown
  deriving DecidableEq

/-- Pattern for matching meeting applications (`MeetingAppPattern`). -/
structure MeetingAppPattern where
  app_name_contains : List String
  title_patterns : List String
  platform : MeetingPlatform

/-- The fixed ordered pattern table (`MEETING_APPS`). -/
def MEETING_APPS : List MeetingAppPattern :=
  [ { app_name_contains := ["zoom.us", "Zoom"],
      title_patterns := ["Zoom Meeting", "Zoom Webinar"],
      platform := .Zoom },
    { app_name_contains := ["Google Chrome", "Arc", "Safari", "Firefox", "Microsoft Edge"],
      title_patterns := ["Meet -", "Google Meet", "meet.google.com"],
      platform := .GoogleMeet },
    { app_name_contains := ["Microsoft Teams", "Teams"],
      title_patterns := ["Meeting", "| Microsoft Teams"],
      platform := .Teams },
    { app_name_contains := ["Slack"],
      title_patterns := ["Huddle", "Call"],
      platform := .Slack },
    { app_name_contains := ["Discord"],
      title_patterns := ["Voice Connected", "Video Call"],
      platform := .Discord },
    { app_name_contains := ["FaceTime"],
      title_patterns := ["FaceTime"],
      platform := .FaceTime },
    { app_name_contains := ["Webex", "Cisco Webex"],
      title_patterns := ["Meeting", "Webex"],
      platform := .Webex },
    { app_name_contains := ["Around"],
      title_patterns := ["Around"],
      platform := .Around },
    { app_name_contains := ["Loom"],
      title_patterns := ["Recording", "Loom"],
      platform := .Loom } ]

/-- Current meeting state (`MeetingState`); `empty` is the `Default`. -/
structure MeetingState where
  in_meeting : Bool
  platform : Option MeetingPlatform
  started_at : Option Nat
  title : Option String
  deriving DecidableEq

/-- `MeetingState::default()`. -/
def MeetingState.empty : MeetingState where
  in_meeting := false
  platform := none
  started_at := none
  title := none

/-- Types of meeting events (`MeetingEventType`). -/
inductive MeetingEventType where
  | MeetingStart
  | MeetingEnd
  deriving DecidableEq

/-- Event emitted when meeting state changes (`MeetingEvent`). -/
structure MeetingEvent where
  event_type : MeetingEventType
  platform : MeetingPlatform
  title : Option String
  duration_minutes : Option Nat
  timestamp : Nat
  deriving DecidableEq

/-- Configuration for meeting detection (`MeetingConfig`). -/
structure MeetingConfig where
  min_meeting_duration_secs : Nat
  grace_period_secs : Nat
  deriving DecidableEq

/-- Meeting detector state (`MeetingDetector`). -/
structure MeetingDetector where
  config : MeetingConfig
  current_state : MeetingState
  potential_meeting_start : Option Nat
  last_meeting_activity : Option Nat
  emitted_start : Bool
  deriving DecidableEq

/-- `MeetingDetector::new`. -/
def MeetingDetector.new (config : MeetingConfig) : MeetingDetector where
  config := config
  current_state := MeetingState.empty
  potential_meeting_start := none
  last_meeting_activity := none
  emitted_start := false

/-- `MeetingDetector::detect_meeting`: pure in the window descriptor, it
scans the pattern table in order; a browser app needs a title match,
a native client matches on app name alone. -/
def detect_meeting (window : WindowInfo) :
    Option (MeetingPlatform × Option String) :=
  let app_name := lowerStr window.app_name
  let title := lowerStr window.title
  (MEETING_APPS.filter fun pat =>
      let app_matches := pat.app_name_contains.any
        (fun p => strContains app_name (lowerStr p))
      let title_matches := pat.title_patterns.any
        (fun p => strContains title (lowerStr p))
      let is_browser := ["chrome", "arc", "safari", "firefox", "edge"].any
        (fun b => strContains app_name b)
      app_matches && (title_matches || (!is_browser && app_matches))).head?
    |>.map fun pat => (pat.platform, some window.title)

/-- `MeetingDetector::check_meeting_end` (grace-period expiry path shared
by the no-window and non-matching-window cases). -/
def MeetingDetector.check_meeting_end (s : MeetingDetector) (now : Nat) :
    MeetingDetector × List MeetingEvent :=
  match s.last_meeting_activity with
  | some last_activity =>
      if now - last_activity ≥ s.config.grace_period_secs then
        let events :=
          if s.current_state.in_meeting && s.emitted_start then
            [{ event_type := .MeetingEnd
               platform := s.current_state.platform.getD .Unknown
               title := s.current_state.title
               duration_minutes := s.current_state.started_at.map
                 (fun start => (now - start) / 60)
               timestamp := now : MeetingEvent }]
          else []
        ({ s with
           current_state := MeetingState.empty
           potential_meeting_start := none
           last_meeting_activity := none
           emitted_start := false }, events)
      else
        (s, [])
  | none => (s, [])

/-- `MeetingDetector::check_window`. -/
def MeetingDetector.check_window (s : MeetingDetector)
    (window : Option WindowInfo) (now : Nat) :
    MeetingDetector × List MeetingEvent :=
  match window with
  | some w =>
      match detect_meeting w with
      | some (platform, title) =>
          let s := { s with last_meeting_activity := some now }
          match s.potential_meeting_start with
          | some start =>
              if !s.current_state.in_meeting then
                let elapsed := now - start
                if elapsed ≥ s.config.min_meeting_duration_secs then
                  let s := { s with
                    current_state :=
                      { in_meeting := true
                        platform := some platform
                        started_at := some (now - elapsed)
                        title := title }
                    emitted_start := true }
                  (s, [{ event_type := .MeetingStart
                         platform := platform
                         title := title
                         duration_minutes := none
                         timestamp := now - elapsed : MeetingEvent }])
                else
                  (s, [])
              else
                (s, [])
          | none =>
              ({ s with potential_meeting_start := some now }, [])
      | none => s.check_meeting_end now
  | none => s.check_meeting_end now

/-- `MeetingDetector::in_meeting`. -/
def MeetingDetector.in_meeting (s : MeetingDetector) : Bool :=
  s.current_state.in_meeting

/-! ## dedup.rs : data model

The `HashMap<EventKey, CacheEntry>` cache is modelled as an association
list with pairwise-distinct keys (the hash-map invariant); entry lookup,
in-place update, insertion and `retain` are the corresponding list
operations.  The content hash of `EventKey::new` (a `DefaultHasher` over
the content string) is kept abstract: keys carry the hash value itself. -/

/-- Configuration for event deduplication (`DedupConfig`); durations in
seconds. -/
structure DedupConfig where
  window : Nat
  max_entries : Nat
  cleanup_interval : Nat
  deriving DecidableEq

/-- A deduplication key (`EventKey`). -/
structure EventKey where
  source : String
  event_type : String
  content_hash : Nat
  deriving DecidableEq

/-- Entry in the deduplication cache (`CacheEntry`). -/
structure CacheEntry where
  timestamp : Nat
  count : Nat
  deriving DecidableEq

/-- Event deduplicator state (`Deduplicator`). -/
structure Deduplicator where
  config : DedupConfig
  cache : List (EventKey × CacheEntry)
  last_cleanup : Nat
  deriving DecidableEq

/-- `Deduplicator::new`. -/
def Deduplicator.new (config : DedupConfig) (now : Nat) : Deduplicator where
  config := config
  cache := []
  last_cleanup := now

/-- `HashMap::get` on the modelled cache. -/
def findEntry (cache : List (EventKey × CacheEntry)) (key : EventKey) :
    Option CacheEntry :=
  match cache with
  | [] => none
  | (k, e) :: rest => if k = key then some e else findEntry rest key

/-- In-place mutation through `HashMap::get_mut`: replace the entry stored
under `key`. -/
def updateEntry (cache : List (EventKey × CacheEntry)) (key : EventKey)
    (entry : CacheEntry) : List (EventKey × CacheEntry) :=
  cache.map fun kv => if kv.1 = key then (key, entry) else kv

/-- `Deduplicator::maybe_cleanup`: interval-gated sweep removing entries
whose last-seen timestamp is older than 10x the window. -/
def Deduplicator.maybe_cleanup (d : Deduplicator) (now : Nat) : Deduplicator :=
  if now - d.last_cleanup < d.config.cleanup_interval then d
  else
    { d with
      cache := d.cache.filter fun kv => now - kv.2.timestamp < d.config.window * 10
      last_cleanup := now }

/-- `Deduplicator::evict_oldest`: stable-sort the entries by last-seen
timestamp and remove the `count` oldest keys. -/
def Deduplicator.evict_oldest (cache : List (EventKey × CacheEntry))
    (count : Nat) : List (EventKey × CacheEntry) :=
  let entries := cache.map fun kv => (kv.1, kv.2.timestamp)
  let sorted := entries.mergeSort fun a b => decide (a.2 ≤ b.2)
  let victims := (sorted.take count).map Prod.fst
  cache.filter fun kv => decide (kv.1 ∉ victims)

/-- `Deduplicator::should_process`. -/
def Deduplicator.should_process (d : Deduplicator) (key : EventKey) (now : Nat) :
    Deduplicator × Bool :=
  let d := d.maybe_cleanup now
  match findEntry d.cache key with
  | some entry =>
      if now - entry.timestamp < d.config.window then
        ({ d with cache := updateEntry d.cache key { entry with count := entry.count + 1 } },
         false)
      else
        ({ d with cache := updateEntry d.cache key { timestamp := now, count := 1 } },
         true)
  | none =>
      let d :=
        if d.cache.length ≥ d.config.max_entries then
          { d with cache := Deduplicator.evict_oldest d.cache (d.config.max_entries / 4) }
        else d
      ({ d with cache := d.cache ++ [(key, { timestamp := now, count := 1 })] }, true)

/-! ## Meeting event stream alternation -/

/-- Event-type stream of a list of meeting events. -/
def eventsTypes (events : List MeetingEvent) : List MeetingEventType :=
  events.map (fun e => e.event_type)

/-- Walk a stream of meeting event types from phase `b` (`false` =
outside a meeting): a MeetingStart is legal only outside, a MeetingEnd
only inside; returns the final phase, or `none` if the stream does not
strictly alternate. -/
def phaseAfter : Bool → List MeetingEventType → Option Bool
  | b, [] => some b
  | false, .MeetingStart :: rest => phaseAfter true rest
  | true, .MeetingEnd :: rest => phaseAfter false rest
  | _, _ => none

/-- Drive a meeting detector through a list of (window, clock)
observations, concatenating all emitted events in order. -/
def runWindows (s : MeetingDetector) :
    List (Option WindowInfo × Nat) → MeetingDetector × List MeetingEvent
  | [] => (s, [])
  | (w, t) :: rest =>
      let step := s.check_window w t
      let steps := runWindows step.1 rest
      (steps.1, step.2 ++ steps.2)

/-! ## Concrete replay states used by several theorems below

A small configuration (idle after 5s, session end after 10s, no system
idle probe) driven through: activity at t=0, an Idle transition observed
at t=7, an Away transition observed at t=20. -/

/-- Test configuration with meeting suppression disabled. -/
def testConfig : IdleConfig := ⟨5, 10, false, false⟩

/-- Fresh detector at t=0. -/
def run0 : IdleDetector := IdleDetector.new testConfig 0

/-- After recording a shell activity at t=0 (session opens). -/
def run1 : IdleDetector := (run0.record_activity "shell" 0).1

/-- After `check_idle` at t=7 (Active to Idle, idle period opens at 7). -/
def run2 : IdleDetector := (run1.check_idle 7 none).1

/-- After `check_idle` at t=20 (Idle to Away, idle period 7..20 closes). -/
def run3 : IdleDetector := (run2.check_idle 20 none).1

/-- Same replay under a configuration with `ignore_idle_in_meetings`
enabled, driven to Idle at t=7 and then marked as in a meeting. -/
def meetConfig : IdleConfig := ⟨5, 10, false, true⟩

/-- Fresh detector, activity at t=0, Idle at t=7, then `set_in_meeting true`. -/
def runMeet : IdleDetector :=
  ((((IdleDetector.new meetConfig 0).record_activity "shell" 0).1.check_idle 7 none).1).set_in_meeting true

/-- Zoom window used by the meeting replays. -/
def zoomWindow : WindowInfo := ⟨"zoom.us", "Zoom Meeting", 1234, none, none⟩

/-- Fresh meeting detector, min duration 30s, grace period 60s. -/
def meet0 : MeetingDetector := MeetingDetector.new ⟨30, 60⟩

/-- After a first matching tick at t=0 (potential start recorded). -/
def meet1 : MeetingDetector := (meet0.check_window (some zoomWindow) 0).1

/-- After a matching tick at t=30 (meeting confirmed, backdated to 0). -/
def meet2 : MeetingDetector := (meet1.check_window (some zoomWindow) 30).1

/-! ## Theorems -/

/-- C5: while the meeting-suppression flag is true and
`ignore_idle_in_meetings` is enabled, `check_idle` leaves the state
Active after every call, regardless of the clock reading or the system
idle probe. -/
theorem claim5_meeting_suppression_keeps_active
    (d : IdleDetector) (now : Nat) (sysIdle : Option Nat)
    (hm : d.in_meeting = true) (hi : d.config.ignore_idle_in_meetings = true) :
    (d.check_idle now sysIdle).1.current_state = .Active := by
  unfold IdleDetector.check_idle
  rw [hm, hi]
  by_cases h : d.current_state = ActivityState.Active
  · simp [h]
  · simp [h]

/-- C5 witness: a detector that went Idle and then entered a meeting is
forced back to (and stays) Active by `check_idle` at t=1000. -/
theorem claim5_witness :
    runMeet.in_meeting = true ∧
    runMeet.config.ignore_idle_in_meetings = true ∧
    (runMeet.check_idle 1000 none).1.current_state = .Active :=
  ⟨by decide, by decide,
   claim5_meeting_suppression_keeps_active runMeet 1000 none (by decide) (by decide)⟩

/-- C8: every `get_session` snapshot computes `active_minutes` as the
session duration minus the summed idle-period durations, clamped at zero
(truncated `Nat` subtraction), in whole minutes. -/
theorem claim8_active_minutes_formula
    (d : IdleDetector) (now si st : Nat) (h : d.session_start = some (si, st)) :
    ∃ sd, d.get_session now = some sd ∧
      sd.active_minutes =
        ((now - si) - (d.idle_periods.map (fun p => p.duration_seconds)).sum) / 60 ∧
      sd.duration_minutes = (now - si) / 60 ∧
      sd.idle_periods = d.idle_periods := by
  unfold IdleDetector.get_session
  rw [h]
  exact ⟨_, rfl, rfl, rfl, rfl⟩

/-- C8 witness: at t=85 the replayed session (one 13s idle period) reports
active_minutes = (85 - 13) / 60 = 1. -/
theorem claim8_witness :
    run3.session_start = some (0, 0) ∧
    (∃ sd, run3.get_session 85 = some sd ∧
      sd.active_minutes =
        ((85 - 0) - (run3.idle_periods.map (fun p => p.duration_seconds)).sum) / 60 ∧
      sd.duration_minutes = (85 - 0) / 60 ∧
      sd.idle_periods = run3.idle_periods) :=
  ⟨by decide, claim8_active_minutes_formula run3 85 0 0 (by decide)⟩

/-- The threshold case split of `targetState`, in the order the spec
states it (sound whenever the idle threshold is at most the session-end
threshold). -/
theorem targetState_eq_cases (config : IdleConfig) (e : Nat)
    (hord : config.idle_threshold ≤ config.session_end_threshold) :
    config.targetState e =
      (if e < config.idle_threshold then .Active
       else if e < config.session_end_threshold then .Idle
       else .Away) := by
  unfold IdleConfig.targetState
  split_ifs <;> first | rfl | (exfalso; omega)

/-- `effElapsed` reads only the configuration and the activity clock. -/
theorem effElapsed_congr (d d' : IdleDetector) (now : Nat) (sysIdle : Option Nat)
    (hc : d'.config = d.config) (hl : d'.last_activity = d.last_activity) :
    d'.effElapsed now sysIdle = d.effElapsed now sysIdle := by
  unfold IdleDetector.effElapsed
  rw [hc, hl]

/-- Non-suppressed `check_idle` with an unchanged target state is a no-op
returning no event. -/
theorem check_idle_nochange (d : IdleDetector) (now : Nat) (sysIdle : Option Nat)
    (hsup : (d.in_meeting && d.config.ignore_idle_in_meetings) = false)
    (heq : d.config.targetState (d.effElapsed now sysIdle).1 = d.current_state) :
    d.check_idle now sysIdle = (d, none) := by
  unfold IdleDetector.check_idle
  simp [hsup, heq]

/-- Field-level description of a non-suppressed `check_idle` call whose
target state differs from the current one. -/
theorem check_idle_change_fields (d : IdleDetector) (now : Nat) (sysIdle : Option Nat)
    (hsup : (d.in_meeting && d.config.ignore_idle_in_meetings) = false)
    (hne : d.config.targetState (d.effElapsed now sysIdle).1 ≠ d.current_state) :
    (d.check_idle now sysIdle).1.current_state =
        d.config.targetState (d.effElapsed now sysIdle).1 ∧
    (d.check_idle now sysIdle).1.config = d.config ∧
    (d.check_idle now sysIdle).1.last_activity = d.last_activity ∧
    (d.check_idle now sysIdle).1.last_activity_time = d.last_activity_time ∧
    (d.check_idle now sysIdle).1.in_meeting = d.in_meeting ∧
    (d.check_idle now sysIdle).1.session_start = d.session_start ∧
    (d.check_idle now sysIdle).1.current_idle_start =
        (if d.config.targetState (d.effElapsed now sysIdle).1 = .Idle then some now
         else if d.config.targetState (d.effElapsed now sysIdle).1 = .Away then none
         else d.current_idle_start) ∧
    (d.check_idle now sysIdle).1.idle_periods =
        (if d.config.targetState (d.effElapsed now sysIdle).1 = .Away then
           (match d.current_idle_start with
            | some s0 => d.idle_periods ++ [IdlePeriod.mk s0 now (now - s0)]
            | none => d.idle_periods)
         else d.idle_periods) ∧
    (d.check_idle now sysIdle).2 = some
      { previous_state := d.current_state.str
        new_state := (d.config.targetState (d.effElapsed now sysIdle).1).str
        idle_duration_seconds := (d.effElapsed now sysIdle).1
        last_activity_type := d.last_activity_type
        last_activity_category := d.last_activity_category
        system_idle := (d.effElapsed now sysIdle).2 } := by
  unfold IdleDetector.check_idle
  simp only [hsup, Bool.false_eq_true, if_false]
  rw [if_pos (by simpa using hne)]
  cases hns : d.config.targetState (d.effElapsed now sysIdle).1 <;>
    cases hst : d.current_idle_start <;>
      simp [hns, hst, IdleDetector.update_category_time]

/-- C1: with meeting suppression not applying (and sane thresholds), the
state after `check_idle` is a pure function of the effective elapsed time
and the two thresholds, exactly as the spec's three cases; no event means
no change (so an immediately repeated call is a no-op, i.e. an
Active-to-Idle transition fires exactly once per elapsed time); a
transition into Idle opens an idle period at now; a transition into Away
closes any open idle period and makes later `get_session` snapshots
report `ended_at = last_activity_time`. -/
theorem claim1_check_idle_state_machine
    (d : IdleDetector) (now : Nat) (sysIdle : Option Nat)
    (hsup : (d.in_meeting && d.config.ignore_idle_in_meetings) = false)
    (hord : d.config.idle_threshold ≤ d.config.session_end_threshold) :
    (d.check_idle now sysIdle).1.current_state =
        (if (d.effElapsed now sysIdle).1 < d.config.idle_threshold then .Active
         else if (d.effElapsed now sysIdle).1 < d.config.session_end_threshold then .Idle
         else .Away) ∧
    ((d.check_idle now sysIdle).2 = none ↔
        d.config.targetState (d.effElapsed now sysIdle).1 = d.current_state) ∧
    ((d.check_idle now sysIdle).2 = none → (d.check_idle now sysIdle).1 = d) ∧
    ((d.check_idle now sysIdle).1.check_idle now sysIdle =
        ((d.check_idle now sysIdle).1, none)) ∧
    (d.config.targetState (d.effElapsed now sysIdle).1 = .Idle →
      d.current_state ≠ .Idle →
      (d.check_idle now sysIdle).1.current_idle_start = some now) ∧
    (d.config.targetState (d.effElapsed now sysIdle).1 = .Away →
      d.current_state ≠ .Away →
      (d.check_idle now sysIdle).1.current_idle_start = none ∧
      (∀ s0, d.current_idle_start = some s0 →
        (d.check_idle now sysIdle).1.idle_periods =
          d.idle_periods ++ [IdlePeriod.mk s0 now (now - s0)]) ∧
      (∀ t sd, (d.check_idle now sysIdle).1.get_session t = some sd →
        sd.ended_at = some d.last_activity_time)) := by
  by_cases heq : d.config.targetState (d.effElapsed now sysIdle).1 = d.current_state
  · have hni := check_idle_nochange d now sysIdle hsup heq
    refine ⟨?_, ?_, ?_, ?_, ?_, ?_⟩
    · rw [hni, ← targetState_eq_cases d.config _ hord, ← heq]
    · rw [hni]
      simp [heq]
    · rw [hni]
      intro _
      rfl
    · rw [hni]
      exact check_idle_nochange d now sysIdle hsup heq
    · intro h1 h2
      exact absurd (heq.symm.trans h1) h2
    · intro h1 h2
      exact absurd (heq.symm.trans h1) h2
  · obtain ⟨f1, f2, f3, f4, f5, f6, f7, f8, f9⟩ :=
      check_idle_change_fields d now sysIdle hsup heq
    have hee : (d.check_idle now sysIdle).1.effElapsed now sysIdle =
        d.effElapsed now sysIdle :=
      effElapsed_congr _ _ now sysIdle f2 f3
    refine ⟨?_, ?_, ?_, ?_, ?_, ?_⟩
    · rw [f1, targetState_eq_cases d.config _ hord]
    · rw [f9]
      simp [heq]
    · rw [f9]
      intro h
      exact absurd h (by simp)
    · apply check_idle_nochange
      · rw [f5, f2]
        exact hsup
      · rw [hee, f2, f1]
    · intro h1 _
      rw [f7, if_pos h1]
    · intro h1 h2
      refine ⟨?_, ?_, ?_⟩
      · rw [f7, if_neg (by rw [h1]; intro hc; cases hc), if_pos h1]
      · intro s0 hs0
        rw [f8, if_pos h1, hs0]
      · intro t sd hsd
        unfold IdleDetector.get_session at hsd
        rcases hss : (d.check_idle now sysIdle).1.session_start with _ | ⟨si, st⟩
        · rw [hss] at hsd
          cases hsd
        · rw [hss] at hsd
          simp only [Option.map_some'] at hsd
          rw [Option.some.injEq] at hsd
          rw [← hsd]
          simp [f1, h1, f4]

/-- C1 witness: at t=7 (elapsed 7, thresholds 5/10) the replayed detector
moves Active to Idle, opens an idle period at 7, and a repeated call is a
no-op. -/
theorem claim1_witness :
    ((run1.in_meeting && run1.config.ignore_idle_in_meetings) = false ∧
     run1.config.idle_threshold ≤ run1.config.session_end_threshold) ∧
    ((run1.check_idle 7 none).1.current_state =
        (if (run1.effElapsed 7 none).1 < run1.config.idle_threshold then .Active
         else if (run1.effElapsed 7 none).1 < run1.config.session_end_threshold then .Idle
         else .Away) ∧
     ((run1.check_idle 7 none).2 = none ↔
        run1.config.targetState (run1.effElapsed 7 none).1 = run1.current_state) ∧
     ((run1.check_idle 7 none).2 = none → (run1.check_idle 7 none).1 = run1) ∧
     ((run1.check_idle 7 none).1.check_idle 7 none = ((run1.check_idle 7 none).1, none)) ∧
     (run1.config.targetState (run1.effElapsed 7 none).1 = .Idle →
       run1.current_state ≠ .Idle →
       (run1.check_idle 7 none).1.current_idle_start = some 7) ∧
     (run1.config.targetState (run1.effElapsed 7 none).1 = .Away →
       run1.current_state ≠ .Away →
       (run1.check_idle 7 none).1.current_idle_start = none ∧
       (∀ s0, run1.current_idle_start = some s0 →
         (run1.check_idle 7 none).1.idle_periods =
           run1.idle_periods ++ [IdlePeriod.mk s0 7 (7 - s0)]) ∧
       (∀ t sd, (run1.check_idle 7 none).1.get_session t = some sd →
         sd.ended_at = some run1.last_activity_time))) :=
  ⟨⟨by decide, by decide⟩,
   claim1_check_idle_state_machine run1 7 none (by decide) (by decide)⟩

/-- Behaviour of `check_meeting_end` in its three cases: no last sighting,
grace period not yet reached, grace period reached. -/
theorem check_meeting_end_spec (s : MeetingDetector) (now : Nat) :
    (s.last_meeting_activity = none → s.check_meeting_end now = (s, [])) ∧
    (∀ la, s.last_meeting_activity = some la →
       now - la < s.config.grace_period_secs →
       s.check_meeting_end now = (s, [])) ∧
    (∀ la, s.last_meeting_activity = some la →
       now - la ≥ s.config.grace_period_secs →
       (s.check_meeting_end now).1 =
         { s with current_state := MeetingState.empty,
                  potential_meeting_start := none,
                  last_meeting_activity := none,
                  emitted_start := false } ∧
       (s.check_meeting_end now).2 =
         (if s.current_state.in_meeting && s.emitted_start then
            [MeetingEvent.mk .MeetingEnd (s.current_state.platform.getD .Unknown)
              s.current_state.title
              (s.current_state.started_at.map (fun start => (now - start) / 60)) now]
          else [])) := by
  unfold MeetingDetector.check_meeting_end
  refine ⟨fun h => by simp [h], fun la h1 h2 => ?_, fun la h1 h2 => ?_⟩
  · rw [h1]
    simp only []
    rw [if_neg (by omega)]
  · rw [h1]
    simp only []
    rw [if_pos h2]
    exact ⟨rfl, rfl⟩

/-- C3: on a matching window, the first sighting only records a potential
start and emits nothing; with a potential start at `start` and no
confirmed meeting, a matching call emits MeetingStart exactly when the
elapsed time since `start` reaches `min_meeting_duration`, with both the
event timestamp and the recorded `started_at` backdated to now minus
that elapsed time; below the threshold, and while a meeting is already
confirmed, a matching call only refreshes the last-seen instant. -/
theorem claim3_meeting_confirmation
    (s : MeetingDetector) (w : WindowInfo) (now : Nat)
    (platform : MeetingPlatform) (title : Option String)
    (hmatch : detect_meeting w = some (platform, title)) :
    (s.potential_meeting_start = none →
       s.check_window (some w) now =
         ({ s with last_meeting_activity := some now,
                   potential_meeting_start := some now }, [])) ∧
    (∀ start, s.potential_meeting_start = some start →
       s.current_state.in_meeting = false →
       now - start ≥ s.config.min_meeting_duration_secs →
       (s.check_window (some w) now).2 =
         [MeetingEvent.mk .MeetingStart platform title none (now - (now - start))] ∧
       (s.check_window (some w) now).1.current_state =
         MeetingState.mk true (some platform) (some (now - (now - start))) title ∧
       (s.check_window (some w) now).1.emitted_start = true) ∧
    (∀ start, s.potential_meeting_start = some start →
       s.current_state.in_meeting = false →
       now - start < s.config.min_meeting_duration_secs →
       s.check_window (some w) now =
         ({ s with last_meeting_activity := some now }, [])) ∧
    (∀ start, s.potential_meeting_start = some start →
       s.current_state.in_meeting = true →
       s.check_window (some w) now =
         ({ s with last_meeting_activity := some now }, [])) := by
  simp only [MeetingDetector.check_window, hmatch]
  refine ⟨fun h => ?_, fun start h1 h2 h3 => ?_, fun start h1 h2 h3 => ?_,
          fun start h1 h2 => ?_⟩
  · simp [h]
  · rw [h1]
    simp only [h2, Bool.not_false, if_true]
    rw [if_pos h3]
    exact ⟨rfl, rfl, rfl⟩
  · rw [h1]
    simp only [h2, Bool.not_false, if_true]
    rw [if_neg (by omega)]
  · rw [h1]
    simp [h2]

/-- C3 witness: with min duration 30 and a Zoom window first seen at t=0,
the matching call at t=30 emits a MeetingStart backdated to t=0 and sets
the confirmed state. -/
theorem claim3_witness :
    detect_meeting zoomWindow = some (.Zoom, some "Zoom Meeting") ∧
    meet1.potential_meeting_start = some 0 ∧
    meet1.current_state.in_meeting = false ∧
    30 - 0 ≥ meet1.config.min_meeting_duration_secs ∧
    ((meet1.check_window (some zoomWindow) 30).2 =
       [MeetingEvent.mk .MeetingStart .Zoom (some "Zoom Meeting") none (30 - (30 - 0))] ∧
     (meet1.check_window (some zoomWindow) 30).1.current_state =
       MeetingState.mk true (some .Zoom) (some (30 - (30 - 0))) (some "Zoom Meeting") ∧
     (meet1.check_window (some zoomWindow) 30).1.emitted_start = true) :=
  ⟨by decide, by decide, by decide, by decide,
   (claim3_meeting_confirmation meet1 zoomWindow 30 .Zoom (some "Zoom Meeting")
     (by decide)).2.1 0 (by decide) (by decide) (by decide)⟩

/-- C4: on a non-matching (or absent) window, a confirmed meeting is left
untouched while the time since the last matching sighting is below the
grace period; once it reaches the grace period, a MeetingEnd event with
duration now minus the confirmed `started_at` (in whole minutes) is
emitted exactly when a meeting had been confirmed, and every piece of
meeting state is reset to its empty default. -/
theorem claim4_meeting_end_grace
    (s : MeetingDetector) (window : Option WindowInfo) (now : Nat)
    (hno : window = none ∨ ∃ w, window = some w ∧ detect_meeting w = none) :
    (s.last_meeting_activity = none → s.check_window window now = (s, [])) ∧
    (∀ la, s.last_meeting_activity = some la →
       now - la < s.config.grace_period_secs →
       s.check_window window now = (s, [])) ∧
    (∀ la, s.last_meeting_activity = some la →
       now - la ≥ s.config.grace_period_secs →
       (s.check_window window now).1 =
         { s with current_state := MeetingState.empty,
                  potential_meeting_start := none,
                  last_meeting_activity := none,
                  emitted_start := false } ∧
       (s.check_window window now).2 =
         (if s.current_state.in_meeting && s.emitted_start then
            [MeetingEvent.mk .MeetingEnd (s.current_state.platform.getD .Unknown)
              s.current_state.title
              (s.current_state.started_at.map (fun start => (now - start) / 60)) now]
          else [])) := by
  have hred : s.check_window window now = s.check_meeting_end now := by
    rcases hno with h | ⟨w, hw, hdm⟩
    · rw [h]
      rfl
    · rw [hw]
      simp only [MeetingDetector.check_window, hdm]
  rw [hred]
  exact check_meeting_end_spec s now

/-- C4 witness: the meeting confirmed at t=30 survives a non-matching call
inside the grace period and is ended at t=91 (61s after the last match)
with duration (91-0)/60 = 1 minute and fully reset state. -/
theorem claim4_witness :
    meet2.last_meeting_activity = some 30 ∧
    91 - 30 ≥ meet2.config.grace_period_secs ∧
    ((meet2.check_window none 91).1 =
       { meet2 with current_state := MeetingState.empty,
                    potential_meeting_start := none,
                    last_meeting_activity := none,
                    emitted_start := false } ∧
     (meet2.check_window none 91).2 =
       (if meet2.current_state.in_meeting && meet2.emitted_start then
          [MeetingEvent.mk .MeetingEnd (meet2.current_state.platform.getD .Unknown)
            meet2.current_state.title
            (meet2.current_state.started_at.map (fun start => (91 - start) / 60)) 91]
        else [])) :=
  ⟨by decide, by decide,
   (claim4_meeting_end_grace meet2 none 91 (Or.inl rfl)).2.2 30 (by decide) (by decide)⟩

/-- C2 (code divergence): after the Away transition at t=20 the source
never clears `session_start` (nothing in the repository calls
`end_session`), so the activity recorded at t=25 continues the old
session: the snapshot shows event_count = 2 (not 1), a non-empty idle
period list and non-empty category time. -/
theorem claim2_away_does_not_reopen_session :
    run3.current_state = .Away ∧
    (((run3.record_activity "shell" 25).1.get_session 25).map
        (fun sd => (sd.event_count, sd.idle_periods, sd.time_by_category))) =
      some (2, [IdlePeriod.mk 7 20 13], [("terminal", 7)]) := by
  constructor
  · decide
  · decide

/-- C6 (code divergence): recording activity at t=9 from the Idle state
(last activity at t=0, so 9 seconds of inactivity just ended) returns an
event whose `idle_duration_seconds` is 0, because the source resets
`last_activity` to now before subtracting it from now. -/
theorem claim6_idle_duration_always_zero :
    run2.current_state = .Idle ∧
    run2.last_activity = 0 ∧
    ((run2.record_activity "shell" 9).2).map
        (fun ev => (ev.previous_state, ev.new_state, ev.idle_duration_seconds)) =
      some ("idle", "active", 0) := by
  refine ⟨by decide, by decide, by decide⟩

/-- C7 (code divergence): under meeting suppression a `check_idle` call
from the Idle state emits a record whose `previous_state` field is
"active" rather than the prior state "idle", because the source
overwrites `current_state` before formatting it into the event; the
idle-period bookkeeping is indeed untouched. -/
theorem claim7_previous_state_misreported :
    runMeet.current_state = .Idle ∧
    ((runMeet.check_idle 100 none).2).map
        (fun ev => (ev.previous_state, ev.new_state)) = some ("active", "active") ∧
    (runMeet.check_idle 100 none).1.current_idle_start = runMeet.current_idle_start ∧
    (runMeet.check_idle 100 none).1.idle_periods = runMeet.idle_periods := by
  refine ⟨by decide, by decide, by decide, by decide⟩

/-! ## Deduplicator lemmas -/

/-- Lookup misses when no entry carries the key. -/
theorem findEntry_none (l : List (EventKey × CacheEntry)) (k : EventKey)
    (h : ∀ kv ∈ l, kv.1 ≠ k) : findEntry l k = none := by
  induction l with
  | nil => rfl
  | cons kv rest ih =>
      obtain ⟨k', e⟩ := kv
      simp only [findEntry]
      rw [if_neg (h (k', e) (List.mem_cons_self _ _))]
      exact ih fun kv' hm => h kv' (List.mem_cons_of_mem _ hm)

/-- Lookup finds the entry sitting after a key-free segment. -/
theorem findEntry_append_key (l₁ l₂ : List (EventKey × CacheEntry))
    (k : EventKey) (e : CacheEntry) (h : ∀ kv ∈ l₁, kv.1 ≠ k) :
    findEntry (l₁ ++ (k, e) :: l₂) k = some e := by
  induction l₁ with
  | nil => simp only [List.nil_append, findEntry, if_pos]
  | cons kv rest ih =>
      obtain ⟨k', e'⟩ := kv
      simp only [List.cons_append, findEntry]
      rw [if_neg (h (k', e') (List.mem_cons_self _ _))]
      exact ih fun kv' hm => h kv' (List.mem_cons_of_mem _ hm)

/-- Updating a key that a segment does not contain leaves it unchanged. -/
theorem updateEntry_skip (l : List (EventKey × CacheEntry)) (k : EventKey)
    (e : CacheEntry) (h : ∀ kv ∈ l, kv.1 ≠ k) : updateEntry l k e = l := by
  induction l with
  | nil => rfl
  | cons kv rest ih =>
      simp only [updateEntry, List.map_cons]
      rw [if_neg (h kv (List.mem_cons_self _ _))]
      have := ih fun kv' hm => h kv' (List.mem_cons_of_mem _ hm)
      simp only [updateEntry] at this
      rw [this]

/-- `updateEntry` distributes over append. -/
theorem updateEntry_append (l₁ l₂ : List (EventKey × CacheEntry)) (k : EventKey)
    (e : CacheEntry) :
    updateEntry (l₁ ++ l₂) k e = updateEntry l₁ k e ++ updateEntry l₂ k e :=
  List.map_append _ _ _

/-- A first sighting of an unseen key (cache below capacity) is accepted
and stored with repeat count 1 after a possibly-run cleanup sweep. -/
theorem should_process_fresh (d : Deduplicator) (k : EventKey) (t : Nat)
    (hk : ∀ kv ∈ d.cache, kv.1 ≠ k)
    (hlen : d.cache.length < d.config.max_entries) :
    ∃ C, (d.should_process k t).1.cache = C ++ [(k, CacheEntry.mk t 1)] ∧
      (∀ kv ∈ C, kv.1 ≠ k) ∧
      (d.should_process k t).1.config = d.config ∧
      (d.should_process k t).2 = true := by
  by_cases hcl : t - d.last_cleanup < d.config.cleanup_interval
  · have hmc : d.maybe_cleanup t = d := by
      unfold Deduplicator.maybe_cleanup
      rw [if_pos hcl]
    have hfind : findEntry d.cache k = none := findEntry_none _ _ hk
    have hfull : ¬d.cache.length ≥ d.config.max_entries := by omega
    simp only [Deduplicator.should_process, hmc, hfind, if_neg hfull]
    refine ⟨d.cache, ?_, hk, ?_, ?_⟩ <;> trivial
  · have hmc : d.maybe_cleanup t = { d with
        cache := d.cache.filter (fun kv => t - kv.2.timestamp < d.config.window * 10),
        last_cleanup := t } := by
      unfold Deduplicator.maybe_cleanup
      rw [if_neg hcl]
    have hkC : ∀ kv ∈ d.cache.filter
        (fun kv => t - kv.2.timestamp < d.config.window * 10), kv.1 ≠ k :=
      fun kv hm => hk kv (List.mem_of_mem_filter hm)
    have hfind : findEntry (d.cache.filter
        (fun kv => t - kv.2.timestamp < d.config.window * 10)) k = none :=
      findEntry_none _ _ hkC
    have hlf : (d.cache.filter
        (fun kv => t - kv.2.timestamp < d.config.window * 10)).length ≤ d.cache.length :=
      List.length_filter_le _ _
    have hfull : ¬(d.cache.filter
        (fun kv => t - kv.2.timestamp < d.config.window * 10)).length ≥
        d.config.max_entries := by omega
    simp only [Deduplicator.should_process, hmc, hfind, if_neg hfull]
    refine ⟨_, ?_, hkC, ?_, ?_⟩ <;> trivial

/-- A repeat sighting within the window is rejected and only bumps the
repeat count, keeping the accepted timestamp. -/
theorem should_process_within (d : Deduplicator) (k : EventKey) (t : Nat)
    (C : List (EventKey × CacheEntry)) (e : CacheEntry)
    (hc : d.cache = C ++ [(k, e)]) (hkC : ∀ kv ∈ C, kv.1 ≠ k)
    (hwin : t - e.timestamp < d.config.window) :
    ∃ C', (d.should_process k t).1.cache =
        C' ++ [(k, CacheEntry.mk e.timestamp (e.count + 1))] ∧
      (∀ kv ∈ C', kv.1 ≠ k) ∧
      (d.should_process k t).1.config = d.config ∧
      (d.should_process k t).2 = false := by
  by_cases hcl : t - d.last_cleanup < d.config.cleanup_interval
  · have hmc : d.maybe_cleanup t = d := by
      unfold Deduplicator.maybe_cleanup
      rw [if_pos hcl]
    have hfind : findEntry d.cache k = some e := by
      rw [hc]
      exact findEntry_append_key C [] k e hkC
    simp only [Deduplicator.should_process, hmc, hfind, if_pos hwin]
    refine ⟨C, ?_, hkC, ?_, ?_⟩
    · rw [hc, updateEntry_append, updateEntry_skip C k _ hkC]
      simp [updateEntry]
    · trivial
    · trivial
  · have hmc : d.maybe_cleanup t = { d with
        cache := d.cache.filter (fun kv => t - kv.2.timestamp < d.config.window * 10),
        last_cleanup := t } := by
      unfold Deduplicator.maybe_cleanup
      rw [if_neg hcl]
    have hkeep : t - e.timestamp < d.config.window * 10 := by omega
    have hfil : d.cache.filter (fun kv => t - kv.2.timestamp < d.config.window * 10) =
        C.filter (fun kv => t - kv.2.timestamp < d.config.window * 10) ++ [(k, e)] := by
      rw [hc, List.filter_append]
      simp [List.filter_singleton, hkeep]
    have hkC' : ∀ kv ∈ C.filter
        (fun kv => t - kv.2.timestamp < d.config.window * 10), kv.1 ≠ k :=
      fun kv hm => hkC kv (List.mem_of_mem_filter hm)
    have hfind : findEntry (d.cache.filter
        (fun kv => t - kv.2.timestamp < d.config.window * 10)) k = some e := by
      rw [hfil]
      exact findEntry_append_key _ [] k e hkC'
    simp only [Deduplicator.should_process, hmc, hfind, if_pos hwin]
    refine ⟨_, ?_, hkC', ?_, ?_⟩
    · rw [hfil, updateEntry_append, updateEntry_skip _ k _ hkC']
      simp [updateEntry]
    · trivial
    · trivial

/-- A sighting at or past the window since the accepted timestamp is
accepted again, whether or not the cleanup sweep dropped the entry. -/
theorem should_process_after (d : Deduplicator) (k : EventKey) (t : Nat)
    (C : List (EventKey × CacheEntry)) (e : CacheEntry)
    (hc : d.cache = C ++ [(k, e)]) (hkC : ∀ kv ∈ C, kv.1 ≠ k)
    (hout : t - e.timestamp ≥ d.config.window) :
    (d.should_process k t).2 = true := by
  by_cases hcl : t - d.last_cleanup < d.config.cleanup_interval
  · have hmc : d.maybe_cleanup t = d := by
      unfold Deduplicator.maybe_cleanup
      rw [if_pos hcl]
    have hfind : findEntry d.cache k = some e := by
      rw [hc]
      exact findEntry_append_key C [] k e hkC
    have hnw : ¬t - e.timestamp < d.config.window := by omega
    simp only [Deduplicator.should_process, hmc, hfind, if_neg hnw]
  · have hmc : d.maybe_cleanup t = { d with
        cache := d.cache.filter (fun kv => t - kv.2.timestamp < d.config.window * 10),
        last_cleanup := t } := by
      unfold Deduplicator.maybe_cleanup
      rw [if_neg hcl]
    by_cases hsurv : t - e.timestamp < d.config.window * 10
    · have hfil : d.cache.filter (fun kv => t - kv.2.timestamp < d.config.window * 10) =
          C.filter (fun kv => t - kv.2.timestamp < d.config.window * 10) ++ [(k, e)] := by
        rw [hc, List.filter_append]
        simp [List.filter_singleton, hsurv]
      have hkC' : ∀ kv ∈ C.filter
          (fun kv => t - kv.2.timestamp < d.config.window * 10), kv.1 ≠ k :=
        fun kv hm => hkC kv (List.mem_of_mem_filter hm)
      have hfind : findEntry (d.cache.filter
          (fun kv => t - kv.2.timestamp < d.config.window * 10)) k = some e := by
        rw [hfil]
        exact findEntry_append_key _ [] k e hkC'
      have hnw : ¬t - e.timestamp < d.config.window := by omega
      simp only [Deduplicator.should_process, hmc, hfind, if_neg hnw]
    · have hfil : d.cache.filter (fun kv => t - kv.2.timestamp < d.config.window * 10) =
          C.filter (fun kv => t - kv.2.timestamp < d.config.window * 10) := by
        rw [hc, List.filter_append]
        simp [List.filter_singleton, hsurv]
      have hkC' : ∀ kv ∈ C.filter
          (fun kv => t - kv.2.timestamp < d.config.window * 10), kv.1 ≠ k :=
        fun kv hm => hkC kv (List.mem_of_mem_filter hm)
      have hfind : findEntry (C.filter
          (fun kv => t - kv.2.timestamp < d.config.window * 10)) k = none :=
        findEntry_none _ _ hkC'
      by_cases hfull : (C.filter
          (fun kv => t - kv.2.timestamp < d.config.window * 10)).length ≥
          d.config.max_entries
      · simp only [Deduplicator.should_process, hmc, hfil, hfind, if_pos hfull]
      · simp only [Deduplicator.should_process, hmc, hfil, hfind, if_neg hfull]

/-- C9: for a key the cache has not seen (cache below capacity), a first
`should_process` call accepts and stores the entry with count 1; a second
call within the dedup window rejects and bumps the count to 2 without
touching the accepted timestamp; a third call once the window has elapsed
since the first accepted sighting accepts again. -/
theorem claim9_dedup_window
    (d : Deduplicator) (k : EventKey) (t1 t2 t3 : Nat)
    (hk : ∀ kv ∈ d.cache, kv.1 ≠ k)
    (hlen : d.cache.length < d.config.max_entries)
    (hwin : t2 - t1 < d.config.window)
    (hout : t3 - t1 ≥ d.config.window) :
    (d.should_process k t1).2 = true ∧
    findEntry (d.should_process k t1).1.cache k = some (CacheEntry.mk t1 1) ∧
    ((d.should_process k t1).1.should_process k t2).2 = false ∧
    findEntry ((d.should_process k t1).1.should_process k t2).1.cache k =
      some (CacheEntry.mk t1 2) ∧
    (((d.should_process k t1).1.should_process k t2).1.should_process k t3).2 = true := by
  obtain ⟨C1, hc1, hk1, hcfg1, hr1⟩ := should_process_fresh d k t1 hk hlen
  have hf1 : findEntry (d.should_process k t1).1.cache k = some (CacheEntry.mk t1 1) := by
    rw [hc1]
    exact findEntry_append_key C1 [] k _ hk1
  obtain ⟨C2, hc2, hk2, hcfg2, hr2⟩ :=
    should_process_within (d.should_process k t1).1 k t2 C1 (CacheEntry.mk t1 1) hc1 hk1
      (by rw [hcfg1]; exact hwin)
  have hf2 : findEntry ((d.should_process k t1).1.should_process k t2).1.cache k =
      some (CacheEntry.mk t1 2) := by
    rw [hc2]
    exact findEntry_append_key C2 [] k _ hk2
  have hr3 := should_process_after ((d.should_process k t1).1.should_process k t2).1 k t3
    C2 (CacheEntry.mk t1 2) hc2 hk2 (by rw [hcfg2, hcfg1]; exact hout)
  exact ⟨hr1, hf1, hr2, hf2, hr3⟩

/-- C9 witness: the default-style configuration (2s window) on an empty
cache: accepted at t=5, rejected at t=6 with count 2, accepted at t=8. -/
theorem claim9_witness :
    ((Deduplicator.new ⟨2, 10000, 60⟩ 0).should_process ⟨"shell", "command", 42⟩ 5).2 = true ∧
    findEntry ((Deduplicator.new ⟨2, 10000, 60⟩ 0).should_process
        ⟨"shell", "command", 42⟩ 5).1.cache ⟨"shell", "command", 42⟩ =
      some (CacheEntry.mk 5 1) ∧
    (((Deduplicator.new ⟨2, 10000, 60⟩ 0).should_process
        ⟨"shell", "command", 42⟩ 5).1.should_process ⟨"shell", "command", 42⟩ 6).2 = false ∧
    findEntry (((Deduplicator.new ⟨2, 10000, 60⟩ 0).should_process
        ⟨"shell", "command", 42⟩ 5).1.should_process
        ⟨"shell", "command", 42⟩ 6).1.cache ⟨"shell", "command", 42⟩ =
      some (CacheEntry.mk 5 2) ∧
    ((((Deduplicator.new ⟨2, 10000, 60⟩ 0).should_process
        ⟨"shell", "command", 42⟩ 5).1.should_process
        ⟨"shell", "command", 42⟩ 6).1.should_process ⟨"shell", "command", 42⟩ 8).2 = true :=
  claim9_dedup_window (Deduplicator.new ⟨2, 10000, 60⟩ 0) ⟨"shell", "command", 42⟩ 5 6 8
    (by decide) (by decide) (by decide) (by decide)

/-- `phaseAfter` on the empty stream keeps the phase. -/
theorem phaseAfter_nil (b : Bool) : phaseAfter b [] = some b := by
  cases b <;> rfl

/-- `phaseAfter` threads through concatenation. -/
theorem phaseAfter_append (l₁ l₂ : List MeetingEventType) (b : Bool) :
    phaseAfter b (l₁ ++ l₂) =
      (phaseAfter b l₁).bind (fun b' => phaseAfter b' l₂) := by
  induction l₁ generalizing b with
  | nil => cases b <;> rfl
  | cons ty rest ih =>
      cases b <;> cases ty <;> simp [phaseAfter, ih]

/-- One `check_meeting_end` call preserves the `emitted_start =
in_meeting` invariant and its events alternate from the current phase to
the resulting one. -/
theorem check_meeting_end_phase (s : MeetingDetector) (t : Nat)
    (hinv : s.emitted_start = s.current_state.in_meeting) :
    phaseAfter s.current_state.in_meeting (eventsTypes (s.check_meeting_end t).2) =
      some (s.check_meeting_end t).1.current_state.in_meeting ∧
    (s.check_meeting_end t).1.emitted_start =
      (s.check_meeting_end t).1.current_state.in_meeting := by
  obtain ⟨h1, h2, h3⟩ := check_meeting_end_spec s t
  cases hla : s.last_meeting_activity with
  | none =>
      rw [h1 hla]
      exact ⟨by simp [eventsTypes, phaseAfter_nil], hinv⟩
  | some la =>
      by_cases hg : t - la ≥ s.config.grace_period_secs
      · obtain ⟨hs', hev⟩ := h3 la hla hg
        rw [hs', hev]
        cases hm : s.current_state.in_meeting
        · rw [hinv, hm]
          simp [eventsTypes, phaseAfter, MeetingState.empty]
        · rw [hinv, hm]
          simp [eventsTypes, phaseAfter, MeetingState.empty]
      · rw [h2 la hla (by omega)]
        exact ⟨by simp [eventsTypes, phaseAfter_nil], hinv⟩

/-- One `check_window` call preserves the `emitted_start = in_meeting`
invariant and its events alternate from the current phase to the
resulting one. -/
theorem check_window_phase (s : MeetingDetector) (w : Option WindowInfo) (t : Nat)
    (hinv : s.emitted_start = s.current_state.in_meeting) :
    phaseAfter s.current_state.in_meeting (eventsTypes (s.check_window w t).2) =
      some (s.check_window w t).1.current_state.in_meeting ∧
    (s.check_window w t).1.emitted_start =
      (s.check_window w t).1.current_state.in_meeting := by
  cases w with
  | none =>
      have hr : s.check_window none t = s.check_meeting_end t := rfl
      rw [hr]
      exact check_meeting_end_phase s t hinv
  | some w =>
      cases hdm : detect_meeting w with
      | none =>
          have hr : s.check_window (some w) t = s.check_meeting_end t := by
            simp only [MeetingDetector.check_window, hdm]
          rw [hr]
          exact check_meeting_end_phase s t hinv
      | some pt =>
          obtain ⟨platform, title⟩ := pt
          simp only [MeetingDetector.check_window, hdm]
          cases hpot : s.potential_meeting_start with
          | none => simp [eventsTypes, phaseAfter_nil, hinv]
          | some start =>
              cases hm : s.current_state.in_meeting
              · by_cases hd : t - start ≥ s.config.min_meeting_duration_secs
                · simp [hd, eventsTypes, phaseAfter]
                · simp [hd, eventsTypes, phaseAfter_nil, hinv, hm]
              · simp [eventsTypes, phaseAfter_nil, hinv, hm]

/-- Folding `check_window` over any observation list preserves the
invariant and yields an alternating event stream whose final phase is
the final `in_meeting` flag. -/
theorem runWindows_phase (inputs : List (Option WindowInfo × Nat))
    (s : MeetingDetector) (hinv : s.emitted_start = s.current_state.in_meeting) :
    phaseAfter s.current_state.in_meeting (eventsTypes (runWindows s inputs).2) =
      some (runWindows s inputs).1.current_state.in_meeting ∧
    (runWindows s inputs).1.emitted_start =
      (runWindows s inputs).1.current_state.in_meeting := by
  induction inputs generalizing s with
  | nil => exact ⟨by simp [runWindows, eventsTypes, phaseAfter_nil], hinv⟩
  | cons p rest ih =>
      obtain ⟨w, t⟩ := p
      obtain ⟨hp, hi⟩ := check_window_phase s w t hinv
      obtain ⟨hp', hi'⟩ := ih (s.check_window w t).1 hi
      refine ⟨?_, hi'⟩
      show phaseAfter s.current_state.in_meeting
          (eventsTypes ((s.check_window w t).2 ++ (runWindows (s.check_window w t).1 rest).2)) =
        some (runWindows (s.check_window w t).1 rest).1.current_state.in_meeting
      rw [eventsTypes, List.map_append, ← eventsTypes, ← eventsTypes, phaseAfter_append, hp]
      exact hp'

/-- C10: from a freshly constructed meeting detector, over every sequence
of `check_window` observations, the concatenated event stream strictly
alternates starting with a MeetingStart (each MeetingEnd is immediately
preceded by the matching MeetingStart and no two consecutive events share
a type), and `in_meeting()` afterwards is exactly the stream's final
phase: true iff the last event was an unmatched MeetingStart. -/
theorem claim10_event_alternation (cfg : MeetingConfig)
    (inputs : List (Option WindowInfo × Nat)) :
    phaseAfter false (eventsTypes (runWindows (MeetingDetector.new cfg) inputs).2) =
      some (runWindows (MeetingDetector.new cfg) inputs).1.in_meeting :=
  (runWindows_phase inputs (MeetingDetector.new cfg) rfl).1

end Siphon
